import Mathlib

/-!
Verification of the event-consumer script (src/scripts/events-consumer.py).

The script is embedded shallowly: every external collaborator (Kafka
consumer, Apicurio registry client, the kuadrantctl subprocess, the YAML
parser, git) is an oracle carried in an `Env` record, and the mutable
state touched by the script (output directory tree, stdout log, the trace
of subprocess invocations and registry fetches) is a `World` record that
is threaded explicitly.  Python exceptions are modelled by an `Option
PyExc` component of every result; `try/except` blocks become matches on
that component.
-/

namespace EventsConsumer

/-- Shallow model of a value returned by `yaml.safe_load`: either a
top-level mapping (a Python dict whose values we keep pre-serialized),
a scalar, a sequence, or Python `None`. -/
inductive Yaml where
  | mapping (fields : List (String × String))
  | scalar (s : String)
  | sequence (items : List String)
  | nullV
deriving DecidableEq, Repr

/-- The Python exception classes the script can raise or catch. -/
inductive PyExc where
  | jsonDecodeError (msg : String)
  | keyError (k : String)
  | typeError (msg : String)
  | attributeError (msg : String)
  | unicodeDecodeError
  | yamlError (msg : String)
  | calledProcessError (stderr : String)
  | otherExc (msg : String)
  | keyboardInterrupt
deriving DecidableEq, Repr

/-- Matches `except json.JSONDecodeError`. -/
def PyExc.isJsonDecodeError : PyExc → Bool
  | .jsonDecodeError _ => true
  | _ => false

/-- Matches `except KeyError`. -/
def PyExc.isKeyError : PyExc → Bool
  | .keyError _ => true
  | _ => false

/-- Matches `except subprocess.CalledProcessError`. -/
def PyExc.isCalledProcessError : PyExc → Bool
  | .calledProcessError _ => true
  | _ => false

/-- Matches `except Exception`: everything except `KeyboardInterrupt`
(which derives from `BaseException` only). -/
def PyExc.isException : PyExc → Bool
  | .keyboardInterrupt => false
  | _ => true

/-- Lifecycle states reported by the registry (`VersionState`). -/
inductive VersionState where
  | enabled
  | disabled
  | deprecated
  | draft
deriving DecidableEq, Repr

/-- Raw bytes returned by the registry content endpoint: either valid
UTF-8 (carrying the decoded string) or not. `bytes.decode` on the latter
raises `UnicodeDecodeError`. -/
inductive ContentBytes where
  | utf8 (s : String)
  | nonUtf8
deriving DecidableEq, Repr

/-- `openapi_content.decode("utf-8")` in `invoke_kuadrant_command`. -/
def decodeContent : ContentBytes → Except PyExc String
  | .utf8 s => .ok s
  | .nonUtf8 => .error .unicodeDecodeError

/-- Outcome of a `subprocess.run(..., check=True)` call: captured stdout
on exit code 0, otherwise a `CalledProcessError` carrying stderr. -/
inductive SubprocResult where
  | ok (stdout : String)
  | fail (stderr : String)
deriving DecidableEq, Repr

/-- The external collaborators, as deterministic oracles. -/
structure Env where
  fetchContent : String → Option String → Option String → Except String ContentBytes
  fetchState : String → Option String → Option String → Except String VersionState
  run : List String → String → SubprocResult
  parse : String → Option Yaml
  git : SubprocResult

/-- A path under the `api-resources/api-resources` output root, as a list
of components. -/
abbrev Path := List String

/-- `dir` is a prefix of `p` (so `p` lies inside the subtree rooted at
`dir`). -/
def underDir : Path → Path → Bool
  | _, [] => true
  | [], _ :: _ => false
  | a :: as, b :: bs => a = b && underDir as bs

/-- Insert a directory path if it is not already present
(`os.makedirs(..., exist_ok=True)`). -/
def insDir (l : List Path) (p : Path) : List Path :=
  if p ∈ l then l else p :: l

/-- Overwrite-or-create a file entry (`open(file_path, "w")` followed by
`yaml.dump`). -/
def writeOne (l : List (Path × Yaml)) (pv : Path × Yaml) : List (Path × Yaml) :=
  pv :: l.filter (fun f => f.1 ≠ pv.1)

/-- The on-disk output tree: explicitly created directories plus files
with their (parsed) contents. -/
structure FS where
  dirs : List Path
  files : List (Path × Yaml)
deriving DecidableEq, Repr

/-- `os.makedirs(p, exist_ok=True)`. -/
def FS.mkdirs (fs : FS) (p : Path) : FS :=
  { fs with dirs := insDir fs.dirs p }

/-- Write (or overwrite) the file at `p`. -/
def FS.write (fs : FS) (p : Path) (v : Yaml) : FS :=
  { fs with files := writeOne fs.files (p, v) }

/-- `os.path.exists(p)`: `p` is an explicitly created directory, an
ancestor of one, or an ancestor of (or equal to) an existing file. -/
def FS.existsPath (fs : FS) (p : Path) : Bool :=
  fs.dirs.any (fun d => underDir d p) || fs.files.any (fun f => underDir f.1 p)

/-- `shutil.rmtree(p)`: drop every directory and file inside the subtree
rooted at `p`. -/
def FS.rmtree (fs : FS) (p : Path) : FS :=
  { dirs := fs.dirs.filter (fun d => ¬ underDir d p)
    files := fs.files.filter (fun f => ¬ underDir f.1 p) }

/-- Contents of a file, if present. -/
def FS.lookup (fs : FS) (p : Path) : Option Yaml :=
  (fs.files.find? (fun f => f.1 = p)).map (fun f => f.2)

/-- Observable state threaded through the script: the output tree, the
stdout log, the trace of kuadrantctl invocations (argument vectors, in
order) and the trace of registry fetch attempts. -/
structure World where
  fs : FS
  log : List String
  gens : List (List String)
  fetches : List (String × Option String × Option String)
deriving DecidableEq, Repr

/-- Append one print line. -/
def World.logLine (w : World) (s : String) : World :=
  { w with log := w.log ++ [s] }

/-- Result of running a statement block: the world after its side
effects, plus the exception propagating out of it, if any. -/
structure PyRes where
  world : World
  exc : Option PyExc
deriving DecidableEq, Repr

/-- Sequencing: run `f` only when no exception is propagating. -/
def PyRes.andThen (r : PyRes) (f : World → PyRes) : PyRes :=
  match r.exc with
  | some _ => r
  | none => f r.world

/-- Python `str(x)` for an optional string, as used by the f-string
prints (`None` renders as "None"). -/
def pyOptStr : Option String → String
  | none => "None"
  | some s => s

/-- Decoded payload dictionary, restricted to the keys the script reads;
`.get` on a missing key yields `none`. -/
structure Payload where
  eventType : Option String
  artifactId : Option String
  version : Option String
  groupId : Option String
  newState : Option String
deriving DecidableEq, Repr

/-- Result of the two-stage decode of a message value
(`json.loads(msg.value().decode("utf-8"))` then
`json.loads(msg_value["payload"])`), classified by where it fails. -/
inductive MsgBody where
  | notJson
  | noPayloadKey
  | payloadNotStr
  | payloadNotJson
  | payloadObj (p : Payload)
deriving DecidableEq, Repr

/-- Raw bytes of a Kafka message value. -/
inductive MsgValue where
  | nonUtf8
  | utf8 (body : MsgBody)
deriving DecidableEq, Repr

/-- The decode pipeline of `process_message` lines 76-77, with the
exception each failure mode raises. -/
def decodeMsgValue : MsgValue → Except PyExc Payload
  | .nonUtf8 => .error .unicodeDecodeError
  | .utf8 .notJson => .error (.jsonDecodeError "outer message")
  | .utf8 .noPayloadKey => .error (.keyError "payload")
  | .utf8 .payloadNotStr => .error (.typeError "the JSON object must be str")
  | .utf8 .payloadNotJson => .error (.jsonDecodeError "payload")
  | .utf8 (.payloadObj p) => .ok p

/-- `msg.error()` outcomes. -/
inductive KafkaErr where
  | partitionEOF
  | other (msg : String)
deriving DecidableEq, Repr

/-- A delivered Kafka message. -/
structure KMsg where
  err : Option KafkaErr
  value : MsgValue
deriving DecidableEq, Repr

/-- `data.pop("status", None)`: on a dict, remove the key and return the
dict; on any other value the attribute access or call raises. -/
def popStatus : Yaml → Except PyExc Yaml
  | .mapping fields => .ok (.mapping (fields.filter (fun kv => kv.1 ≠ "status")))
  | .scalar _ => .error (.attributeError "str has no attribute pop")
  | .sequence _ => .error (.typeError "list pop takes integers")
  | .nullV => .error (.attributeError "NoneType has no attribute pop")

/-- Argument vector of the httproute generation mode. -/
def httprouteArgs : List String :=
  ["kuadrantctl", "generate", "gatewayapi", "httproute", "--oas", "-"]

/-- Argument vector of the authpolicy generation mode. -/
def authpolicyArgs : List String :=
  ["kuadrantctl", "generate", "kuadrant", "authpolicy", "--oas", "-"]

/-- Argument vector of the ratelimitpolicy generation mode. -/
def ratelimitArgs : List String :=
  ["kuadrantctl", "generate", "kuadrant", "ratelimitpolicy", "--oas", "-"]

/-- The generated file name
`f"{group_id}_{artifact_id}_v{version}_{filename}.yaml"`. -/
def outputFileName (group a v mode : String) : String :=
  group ++ "_" ++ a ++ "_v" ++ v ++ "_" ++ mode ++ ".yaml"

/-- The full output path, relative to the
`api-resources/api-resources` root. -/
def outputPath (group a v mode : String) : Path :=
  [group, a, v, outputFileName group a v mode]

/-- `invoke_kuadrant_command`: build the folder path (raising `TypeError`
when `os.path.join` receives `None`), `makedirs` it, then inside
`try ... except subprocess.CalledProcessError`: decode the content, run
the tool, parse its stdout, strip `status`, write the file. -/
def invoke_kuadrant_command (env : Env) (group : String) (artifact version : Option String)
    (args : List String) (content : ContentBytes) (mode : String) (w : World) : PyRes :=
  match artifact, version with
  | some a, some v =>
    let folder : Path := [group, a, v]
    let w1 : World := { w with fs := w.fs.mkdirs folder }
    let fpath : Path := outputPath group a v mode
    let body : PyRes :=
      match decodeContent content with
      | .error e => ⟨w1, some e⟩
      | .ok s =>
        let w2 : World := { w1 with gens := w1.gens ++ [args] }
        match env.run args s with
        | .fail stderr => ⟨w2, some (.calledProcessError stderr)⟩
        | .ok out =>
          match env.parse out with
          | none => ⟨w2, some (.yamlError out)⟩
          | some data =>
            match popStatus data with
            | .error e => ⟨w2, some e⟩
            | .ok stripped =>
              ⟨(({ w2 with fs := w2.fs.write fpath stripped } : World)).logLine
                  ("Kuadrant resource generated and saved to " ++ String.intercalate "/" fpath),
                none⟩
    match body with
    | ⟨w3, some e⟩ =>
      if e.isCalledProcessError then
        ⟨w3.logLine "Error generating Kuadrant resources", none⟩
      else ⟨w3, some e⟩
    | r => r
  | _, _ => ⟨w, some (.typeError "join on NoneType")⟩

/-- `invoke_kuadrant_cli`: three sequential generation-mode invocations;
an exception escaping one aborts the remaining ones. -/
def invoke_kuadrant_cli (env : Env) (group : String) (artifact version : Option String)
    (content : ContentBytes) (w : World) : PyRes :=
  (((invoke_kuadrant_command env group artifact version httprouteArgs content
        "httproute" w).andThen
      (invoke_kuadrant_command env group artifact version authpolicyArgs content
        "authpolicy")).andThen
    (invoke_kuadrant_command env group artifact version ratelimitArgs content
      "ratelimiting_policy"))

/-- Print line of `get_artifact_content`'s blanket handler. -/
def fetchFailMsg (artifact version : Option String) : String :=
  "Failed to retrieve artifact content for " ++ pyOptStr artifact ++
    " version " ++ pyOptStr version

/-- `get_artifact_content`: record the fetch attempt, consult the
registry for content and state, and generate only when the registry
reports `ENABLED`; `except Exception` converts any exception into a log
line. -/
def get_artifact_content (env : Env) (group : String) (artifact version : Option String)
    (w : World) : PyRes :=
  let w0 : World := { w with fetches := w.fetches ++ [(group, artifact, version)] }
  let body : PyRes :=
    match env.fetchContent group artifact version with
    | .error msg => ⟨w0, some (.otherExc msg)⟩
    | .ok content =>
      match env.fetchState group artifact version with
      | .error msg => ⟨w0, some (.otherExc msg)⟩
      | .ok st =>
        if st = VersionState.enabled then
          invoke_kuadrant_cli env group artifact version content w0
        else ⟨w0, none⟩
  match body with
  | ⟨w1, some e⟩ =>
    if e.isException then ⟨w1.logLine (fetchFailMsg artifact version), none⟩
    else ⟨w1, some e⟩
  | r => r

/-- `delete_artifact_directory`: remove the whole
`group/artifactId` subtree, or log when it does not exist.
`os.path.join` with a `None` artifact id raises `TypeError`. -/
def delete_artifact_directory (group : String) (artifact : Option String)
    (w : World) : PyRes :=
  match artifact with
  | none => ⟨w, some (.typeError "join on NoneType")⟩
  | some a =>
    let folder : Path := [group, a]
    if w.fs.existsPath folder then
      ⟨{ (w.logLine ("Deleted artifact directory with all versions: " ++
            String.intercalate "/" folder)) with fs := w.fs.rmtree folder }, none⟩
    else
      ⟨w.logLine ("Artifact directory does not exist: " ++
          String.intercalate "/" folder), none⟩

/-- `delete_version`: remove the `group/artifactId/version` subtree, or
log when it does not exist. -/
def delete_version (group : String) (artifact version : Option String)
    (w : World) : PyRes :=
  match artifact, version with
  | some a, some v =>
    let folder : Path := [group, a, v]
    if w.fs.existsPath folder then
      ⟨{ (w.logLine ("Deleted directory: " ++ String.intercalate "/" folder)) with
          fs := w.fs.rmtree folder }, none⟩
    else
      ⟨w.logLine ("Directory does not exist: " ++ String.intercalate "/" folder), none⟩
  | _, _ => ⟨w, some (.typeError "join on NoneType")⟩

/-- Skip line printed for a state change that is not to ENABLED. -/
def skipStateMsg (artifact newState : Option String) : String :=
  "Skipping artifact " ++ pyOptStr artifact ++ " with newState: " ++ pyOptStr newState

/-- The `except json.JSONDecodeError / except KeyError` clauses wrapping
the body of `process_message`. -/
def pmCatch (r : PyRes) : PyRes :=
  match r with
  | ⟨w1, some e⟩ =>
    if e.isJsonDecodeError then ⟨w1.logLine "Failed to decode JSON message", none⟩
    else if e.isKeyError then ⟨w1.logLine "Missing expected key", none⟩
    else ⟨w1, some e⟩
  | r => r

/-- `process_message`: decode, dispatch on `eventType`, and catch
`json.JSONDecodeError` and `KeyError` at the message level. -/
def process_message (env : Env) (m : KMsg) (w : World) : PyRes :=
  pmCatch
    (match decodeMsgValue m.value with
    | .error e => ⟨w, some e⟩
    | .ok p =>
      let artifact := p.artifactId
      let version := p.version
      let eventType := p.eventType
      let group := p.groupId.getD "default"
      if eventType = some "ARTIFACT_VERSION_CREATED" then
        get_artifact_content env group artifact version
          (w.logLine ("Artifact version created event - " ++ pyOptStr eventType ++
            ": Artifact ID: " ++ pyOptStr artifact ++ ", Version: " ++ pyOptStr version))
      else if eventType = some "ARTIFACT_VERSION_STATE_CHANGED" then
        if p.newState = some "ENABLED" then
          get_artifact_content env group artifact version
            (w.logLine ("Artifact version enabled event - " ++ pyOptStr eventType ++
              ": Artifact ID: " ++ pyOptStr artifact ++ ", Version: " ++ pyOptStr version))
        else ⟨w.logLine (skipStateMsg artifact p.newState), none⟩
      else if eventType = some "ARTIFACT_DELETED" then
        delete_artifact_directory group artifact
          (w.logLine ("Artifact deleted event - " ++ pyOptStr eventType ++
            ": Artifact ID: " ++ pyOptStr artifact))
      else if eventType = some "ARTIFACT_VERSION_DELETED" then
        delete_version group artifact version
          (w.logLine ("Artifact version deleted event - " ++ pyOptStr eventType ++
            ": Artifact ID: " ++ pyOptStr artifact ++ ", Version: " ++ pyOptStr version))
      else
        ⟨w.logLine ("Other Event - " ++ pyOptStr eventType ++ ": Artifact ID: " ++
            pyOptStr artifact ++ ", Version: " ++ pyOptStr version), none⟩)

/-- `process_messages`: iterate over a batch; delivery errors are skipped
(partition EOF silently); `process_message` is guarded only by
`except json.JSONDecodeError`, so any other exception aborts the batch. -/
def process_messages (env : Env) (msgs : List KMsg) (w : World) : PyRes :=
  match msgs with
  | [] => ⟨w, none⟩
  | m :: rest =>
    match m.err with
    | some .partitionEOF => process_messages env rest w
    | some (.other s) => process_messages env rest (w.logLine ("Error occurred: " ++ s))
    | none =>
      let r := process_message env m w
      match r.exc with
      | some e =>
        if e.isJsonDecodeError then
          process_messages env rest (r.world.logLine "Error decoding message")
        else r
      | none => process_messages env rest r.world

/-- `commit_and_push_to_git`: stage, commit and push; a
`CalledProcessError` from any of the git commands is caught and logged. -/
def commit_and_push_to_git (env : Env) (w : World) : PyRes :=
  match env.git with
  | .ok _ =>
    ⟨w.logLine "Successfully committed and pushed changes to the Git repository.", none⟩
  | .fail stderr =>
    ⟨w.logLine ("Error committing and pushing to Git:" ++ stderr), none⟩

/-- One result of `consumer.consume(batch_size, timeout=timeout)`: a
(possibly empty) batch, or the poll raising (covering transport failures
and interruption at the suspension point). -/
inductive Poll where
  | batch (msgs : List KMsg)
  | broken (e : PyExc)
deriving DecidableEq, Repr

/-- How one run of the consumption loop ended: normal return after the
idle-triggered flush, an exception propagating out, or the supplied poll
sequence ran out while the loop was still going (the `while True` loop
has no other way to stop). -/
inductive Outcome where
  | finished
  | errored (e : PyExc)
  | outOfInput (idle : Nat)
deriving DecidableEq, Repr

/-- The loop body of `consume_messages_in_batches`, driven by the list of
poll results; the returned `Nat` counts `commit_and_push_to_git`
invocations performed by the loop. -/
def consumeLoopAux (env : Env) (timeout idleTimeout : Nat) :
    List Poll → Nat → World → World × Outcome × Nat
  | [], idle, w => (w, .outOfInput idle, 0)
  | .broken e :: _, _, w => (w, .errored e, 0)
  | .batch msgs :: rest, idle, w =>
    if msgs.isEmpty then
      let idle2 := idle + timeout
      if idleTimeout ≤ idle2 then
        let r := commit_and_push_to_git env
          (w.logLine "No messages left in Kafka. Pushing files to git...")
        (r.world, .finished, 1)
      else consumeLoopAux env timeout idleTimeout rest idle2 w
    else
      let r := process_messages env msgs w
      match r.exc with
      | some e => (r.world, .errored e, 0)
      | none => consumeLoopAux env timeout idleTimeout rest 0 r.world

/-- Result of `consume_messages_in_batches`, including whether
`consumer.close()` ran. -/
structure ConsumeRes where
  world : World
  outcome : Outcome
  syncs : Nat
  closed : Bool
deriving DecidableEq, Repr

/-- `consume_messages_in_batches`: the loop wrapped in
`try ... finally consumer.close()`. -/
def consume_messages_in_batches (env : Env) (timeout idleTimeout : Nat)
    (polls : List Poll) (w : World) : ConsumeRes :=
  let r := consumeLoopAux env timeout idleTimeout polls 0 w
  ⟨r.1, r.2.1, r.2.2, true⟩

/-!
Generic machinery: the filesystem effect of a straight-line run of the
script is a list of `mkdir`/`write` operations computed from the oracles
alone; applying such a list twice equals applying it once.
-/

/-- One elementary filesystem operation performed by the script. -/
inductive FsOp where
  | mkdir (p : Path)
  | write (p : Path) (v : Yaml)
deriving DecidableEq, Repr

/-- Apply one operation. -/
def FS.applyOp (fs : FS) : FsOp → FS
  | .mkdir p => fs.mkdirs p
  | .write p v => fs.write p v

/-- Apply a list of operations in order. -/
def applyOps (ops : List FsOp) (fs : FS) : FS :=
  ops.foldl FS.applyOp fs

/-- The write operations of a list, in order. -/
def writesOf (ops : List FsOp) : List (Path × Yaml) :=
  ops.filterMap (fun op => match op with | .write p v => some (p, v) | .mkdir _ => none)

/-- The mkdir operations of a list, in order. -/
def mkdirsOf (ops : List FsOp) : List Path :=
  ops.filterMap (fun op => match op with | .mkdir p => some p | .write _ _ => none)

/-- Apply a list of writes to a file list. -/
def applyWrites (ws : List (Path × Yaml)) (l : List (Path × Yaml)) : List (Path × Yaml) :=
  ws.foldl writeOne l

/-- Apply a list of mkdirs to a directory list. -/
def applyDirs (ds : List Path) (l : List Path) : List Path :=
  ds.foldl insDir l

/-- `k` is none of the paths written by `ws`. -/
def notKey (ws : List (Path × Yaml)) (k : Path) : Bool :=
  ws.all (fun q => k ≠ q.1)

/-- The filesystem operations one `invoke_kuadrant_command` call performs
for concrete coordinates, determined by the oracles alone: always the
`makedirs`, then the file write exactly when the whole pipeline
(decode, run, parse, strip) succeeds. -/
def cmdFsTail (env : Env) (g a v : String) (args : List String) (c : ContentBytes)
    (mode : String) : List FsOp :=
  FsOp.mkdir [g, a, v] ::
    (match c with
     | .nonUtf8 => []
     | .utf8 s =>
       match env.run args s with
       | .fail _ => []
       | .ok out =>
         match env.parse out with
         | none => []
         | some data =>
           match popStatus data with
           | .error _ => []
           | .ok stripped => [FsOp.write (outputPath g a v mode) stripped])

/-- The exception escaping one `invoke_kuadrant_command` call (a
`CalledProcessError` is caught inside and never escapes). -/
def cmdExcOf (env : Env) (args : List String) (c : ContentBytes) : Option PyExc :=
  match c with
  | .nonUtf8 => some .unicodeDecodeError
  | .utf8 s =>
    match env.run args s with
    | .fail _ => none
    | .ok out =>
      match env.parse out with
      | none => some (.yamlError out)
      | some data =>
        match popStatus data with
        | .error e => some e
        | .ok _ => none

/-- The filesystem operations of one `invoke_kuadrant_cli` call: the
three modes in order, truncated after the first escaping exception. -/
def cliFsTail (env : Env) (g a v : String) (c : ContentBytes) : List FsOp :=
  cmdFsTail env g a v httprouteArgs c "httproute" ++
    (match cmdExcOf env httprouteArgs c with
     | some _ => []
     | none =>
       cmdFsTail env g a v authpolicyArgs c "authpolicy" ++
         (match cmdExcOf env authpolicyArgs c with
          | some _ => []
          | none => cmdFsTail env g a v ratelimitArgs c "ratelimiting_policy"))

/-- The exception escaping one `invoke_kuadrant_cli` call. -/
def cliExcOf (env : Env) (c : ContentBytes) : Option PyExc :=
  match cmdExcOf env httprouteArgs c with
  | some e => some e
  | none =>
    match cmdExcOf env authpolicyArgs c with
    | some e => some e
    | none => cmdExcOf env ratelimitArgs c

/-- The filesystem operations of one `get_artifact_content` call. -/
def gacFsTail (env : Env) (g : String) (a v : Option String) : List FsOp :=
  match env.fetchContent g a v with
  | .error _ => []
  | .ok c =>
    match env.fetchState g a v with
    | .error _ => []
    | .ok st =>
      if st = VersionState.enabled then
        match a, v with
        | some a2, some v2 => cliFsTail env g a2 v2 c
        | _, _ => []
      else []

/-!
Concrete worlds, environments and messages used by witnesses and
counterexamples.
-/

/-- The empty starting world. -/
def w0 : World := ⟨⟨[], []⟩, [], [], []⟩

/-- An environment whose oracles all fail or return nothing useful. -/
def env0 : Env :=
  { fetchContent := fun _ _ _ => .error "unreachable"
    fetchState := fun _ _ _ => .error "unreachable"
    run := fun _ _ => .fail "unreachable"
    parse := fun _ => none
    git := .ok "" }

/-- Registry answers, but reports state DISABLED. -/
def env5 : Env :=
  { env0 with
    fetchContent := fun _ _ _ => .ok (.utf8 "OAS")
    fetchState := fun _ _ _ => .ok .disabled }

/-- Everything succeeds; the generator emits a document carrying a
top-level status field. -/
def envOK : Env :=
  { fetchContent := fun _ _ _ => .ok (.utf8 "OAS")
    fetchState := fun _ _ _ => .ok .enabled
    run := fun _ _ => .ok "DOC"
    parse := fun s =>
      if s = "DOC" then some (.mapping [("kind", "Route"), ("status", "stale")]) else none
    git := .ok "" }

/-- The httproute mode emits malformed output; the other two modes
would succeed. -/
def envBadY : Env :=
  { fetchContent := fun _ _ _ => .ok (.utf8 "OAS")
    fetchState := fun _ _ _ => .ok .enabled
    run := fun args _ => if args = httprouteArgs then .ok "BAD" else .ok "GOOD"
    parse := fun s => if s = "BAD" then none else some (.mapping [("kind", "Policy")])
    git := .ok "" }

/-- A VersionCreated event for shop/orders-api version 1. -/
def p8 : Payload :=
  ⟨some "ARTIFACT_VERSION_CREATED", some "orders-api", some "1", some "shop", none⟩

def msg8 : KMsg := ⟨none, .utf8 (.payloadObj p8)⟩

/-- A VersionCreated event for default/a version 1. -/
def p5 : Payload := ⟨some "ARTIFACT_VERSION_CREATED", some "a", some "1", none, none⟩

def msg5 : KMsg := ⟨none, .utf8 (.payloadObj p5)⟩

/-- A state-changed event whose payload lacks newState. -/
def p10 : Payload := ⟨some "ARTIFACT_VERSION_STATE_CHANGED", some "art", some "2", none, none⟩

def msg10 : KMsg := ⟨none, .utf8 (.payloadObj p10)⟩

/-- An ArtifactDeleted event whose payload lacks artifactId. -/
def p4 : Payload := ⟨some "ARTIFACT_DELETED", none, none, none, none⟩

def msg4 : KMsg := ⟨none, .utf8 (.payloadObj p4)⟩

/-- A delivered message whose value bytes are not valid UTF-8. -/
def msg3 : KMsg := ⟨none, .nonUtf8⟩

/-- A delivered end-of-partition marker. -/
def msgEOF : KMsg := ⟨some .partitionEOF, .utf8 .notJson⟩

/-- The httproute mode exits non-zero; the other two modes succeed. -/
def envFail1 : Env :=
  { fetchContent := fun _ _ _ => .ok (.utf8 "OAS")
    fetchState := fun _ _ _ => .ok .enabled
    run := fun args _ => if args = httprouteArgs then .fail "boom" else .ok "GOOD"
    parse := fun s => if s = "BAD" then none else some (.mapping [("kind", "Policy")])
    git := .ok "" }

/-- A VersionCreated event whose payload lacks artifactId. -/
def p4c : Payload := ⟨some "ARTIFACT_VERSION_CREATED", none, some "1", none, none⟩

def msg4c : KMsg := ⟨none, .utf8 (.payloadObj p4c)⟩

/-- A world holding two generated versions of one artifact. -/
def w6 : World :=
  ⟨⟨[["g", "art", "1"], ["g", "art", "2"]],
    [(["g", "art", "1", "f.yaml"], .nullV), (["g", "art", "2", "f.yaml"], .nullV)]⟩,
    [], [], []⟩

theorem applyOps_files (ops : List FsOp) (fs : FS) :
    (applyOps ops fs).files = applyWrites (writesOf ops) fs.files := by
  induction ops generalizing fs with
  | nil => rfl
  | cons op rest ih =>
    cases op with
    | mkdir p => simpa [applyOps, writesOf, applyWrites, FS.applyOp, FS.mkdirs] using ih _
    | write p v => simpa [applyOps, writesOf, applyWrites, FS.applyOp, FS.write] using ih _

theorem applyOps_dirs (ops : List FsOp) (fs : FS) :
    (applyOps ops fs).dirs = applyDirs (mkdirsOf ops) fs.dirs := by
  induction ops generalizing fs with
  | nil => rfl
  | cons op rest ih =>
    cases op with
    | mkdir p => simpa [applyOps, mkdirsOf, applyDirs, FS.applyOp, FS.mkdirs] using ih _
    | write p v => simpa [applyOps, mkdirsOf, applyDirs, FS.applyOp, FS.write] using ih _

theorem applyWrites_split (ws : List (Path × Yaml)) (l : List (Path × Yaml)) :
    applyWrites ws l = applyWrites ws [] ++ l.filter (fun f => notKey ws f.1) := by
  induction ws generalizing l with
  | nil => simp [applyWrites, notKey]
  | cons pv ws ih =>
    have hl : applyWrites (pv :: ws) l = applyWrites ws (writeOne l pv) := rfl
    have hr : applyWrites (pv :: ws) [] = applyWrites ws [pv] := rfl
    rw [hl, hr, ih (writeOne l pv), ih [pv], List.append_assoc]
    congr 1
    have h2 : (l.filter (fun f => f.1 ≠ pv.1)).filter (fun f => notKey ws f.1)
        = l.filter (fun f => notKey (pv :: ws) f.1) := by
      rw [List.filter_filter]
      apply List.filter_congr
      intro f _
      simp [notKey, Bool.and_comm]
    rw [← h2]
    simp only [writeOne, List.filter_cons]
    by_cases hk : notKey ws pv.1 <;> simp [hk]

theorem mem_applyWrites {f : Path × Yaml} {ws l : List (Path × Yaml)}
    (h : f ∈ applyWrites ws l) : f ∈ l ∨ notKey ws f.1 = false := by
  induction ws generalizing l with
  | nil => exact Or.inl h
  | cons pv ws ih =>
    have h2 := ih (l := writeOne l pv) h
    rcases h2 with h2 | h2
    · simp only [writeOne, List.mem_cons, List.mem_filter] at h2
      rcases h2 with h2 | h2
      · subst h2
        simp [notKey]
      · exact Or.inl h2.1
    · right
      simp only [notKey, List.all_cons] at h2 ⊢
      rw [h2, Bool.and_false]

theorem applyWrites_pure_filter (ws : List (Path × Yaml)) :
    (applyWrites ws []).filter (fun f => notKey ws f.1) = [] := by
  rw [List.filter_eq_nil_iff]
  intro f hf
  rcases mem_applyWrites hf with h | h
  · simp at h
  · simp [h]

theorem applyWrites_idem (ws : List (Path × Yaml)) (l : List (Path × Yaml)) :
    applyWrites ws (applyWrites ws l) = applyWrites ws l := by
  have h1 := applyWrites_split ws (applyWrites ws l)
  rw [h1, applyWrites_split ws l, List.filter_append, applyWrites_pure_filter,
    List.filter_filter]
  have hfix : l.filter (fun f => notKey ws f.1 && notKey ws f.1) =
      l.filter (fun f => notKey ws f.1) := by
    apply List.filter_congr
    intro f _
    simp [Bool.and_self]
  rw [hfix, List.nil_append]

theorem mem_insDir {q p : Path} {l : List Path} (h : q ∈ l ∨ q = p) : q ∈ insDir l p := by
  unfold insDir
  by_cases hp : p ∈ l
  · simp only [if_pos hp]
    rcases h with h | h
    · exact h
    · simpa [h] using hp
  · simp only [if_neg hp]
    rcases h with h | h
    · exact List.mem_cons_of_mem _ h
    · simp [h]

theorem mem_applyDirs_of_mem {p : Path} {ds l : List Path} (h : p ∈ l) :
    p ∈ applyDirs ds l := by
  induction ds generalizing l with
  | nil => exact h
  | cons d ds ih => exact ih (mem_insDir (Or.inl h))

theorem mem_applyDirs_of_mem_ops {p : Path} {ds l : List Path} (h : p ∈ ds) :
    p ∈ applyDirs ds l := by
  induction ds generalizing l with
  | nil => cases h
  | cons d ds ih =>
    show p ∈ applyDirs ds (insDir l d)
    rcases List.mem_cons.mp h with h | h
    · exact mem_applyDirs_of_mem (mem_insDir (Or.inr h))
    · exact ih h

theorem applyDirs_no_op {ds l : List Path} (h : ∀ p ∈ ds, p ∈ l) : applyDirs ds l = l := by
  induction ds with
  | nil => rfl
  | cons d ds ih =>
    have hd : d ∈ l := h d (List.mem_cons_self d ds)
    have : insDir l d = l := by simp [insDir, hd]
    calc applyDirs (d :: ds) l = applyDirs ds (insDir l d) := rfl
      _ = applyDirs ds l := by rw [this]
      _ = l := ih (fun p hp => h p (List.mem_cons_of_mem d hp))

theorem applyDirs_idem (ds : List Path) (l : List Path) :
    applyDirs ds (applyDirs ds l) = applyDirs ds l :=
  applyDirs_no_op (fun p hp => mem_applyDirs_of_mem_ops hp)

theorem FS.eqOfParts {a b : FS} (hd : a.dirs = b.dirs) (hf : a.files = b.files) : a = b := by
  cases a; cases b; simp_all

theorem applyOps_idem (ops : List FsOp) (fs : FS) :
    applyOps ops (applyOps ops fs) = applyOps ops fs := by
  apply FS.eqOfParts
  · rw [applyOps_dirs, applyOps_dirs, applyDirs_idem]
  · rw [applyOps_files, applyOps_files, applyWrites_idem]

theorem notKey_eq_false {ws : List (Path × Yaml)} {k : Path} (h : notKey ws k = false) :
    k ∈ ws.map Prod.fst := by
  simp only [notKey, List.all_eq_false, decide_eq_true_eq, not_not] at h
  rcases h with ⟨q, hq, hk⟩
  exact List.mem_map.mpr ⟨q, hq, hk.symm⟩

theorem mem_files_applyOps {f : Path × Yaml} {ops : List FsOp} {fs : FS}
    (h : f ∈ (applyOps ops fs).files) :
    f ∈ fs.files ∨ f.1 ∈ (writesOf ops).map Prod.fst := by
  rw [applyOps_files] at h
  rcases mem_applyWrites h with h | h
  · exact Or.inl h
  · exact Or.inr (notKey_eq_false h)

theorem applyOps_append (a b : List FsOp) (fs : FS) :
    applyOps (a ++ b) fs = applyOps b (applyOps a fs) :=
  List.foldl_append FS.applyOp fs a b

/-!
Characterization of the script's filesystem effect and exception
behaviour as pure functions of the oracles.
-/

theorem invoke_cmd_fs_exc (env : Env) (g a v : String) (args : List String)
    (c : ContentBytes) (mode : String) (w : World) :
    (invoke_kuadrant_command env g (some a) (some v) args c mode w).world.fs
      = applyOps (cmdFsTail env g a v args c mode) w.fs ∧
    (invoke_kuadrant_command env g (some a) (some v) args c mode w).exc
      = cmdExcOf env args c := by
  cases c with
  | nonUtf8 =>
    simp [invoke_kuadrant_command, cmdFsTail, cmdExcOf, decodeContent,
      PyExc.isCalledProcessError, applyOps, FS.applyOp, World.logLine]
  | utf8 s =>
    cases hrun : env.run args s with
    | fail stderr =>
      simp [invoke_kuadrant_command, cmdFsTail, cmdExcOf, decodeContent, hrun,
        PyExc.isCalledProcessError, applyOps, FS.applyOp, World.logLine]
    | ok out =>
      cases hp : env.parse out with
      | none =>
        simp [invoke_kuadrant_command, cmdFsTail, cmdExcOf, decodeContent, hrun, hp,
          PyExc.isCalledProcessError, applyOps, FS.applyOp, World.logLine]
      | some data =>
        cases data with
        | mapping fields =>
          simp [invoke_kuadrant_command, cmdFsTail, cmdExcOf, decodeContent, hrun, hp,
            popStatus, PyExc.isCalledProcessError, applyOps, FS.applyOp, World.logLine]
        | scalar s2 =>
          simp [invoke_kuadrant_command, cmdFsTail, cmdExcOf, decodeContent, hrun, hp,
            popStatus, PyExc.isCalledProcessError, applyOps, FS.applyOp, World.logLine]
        | sequence items =>
          simp [invoke_kuadrant_command, cmdFsTail, cmdExcOf, decodeContent, hrun, hp,
            popStatus, PyExc.isCalledProcessError, applyOps, FS.applyOp, World.logLine]
        | nullV =>
          simp [invoke_kuadrant_command, cmdFsTail, cmdExcOf, decodeContent, hrun, hp,
            popStatus, PyExc.isCalledProcessError, applyOps, FS.applyOp, World.logLine]

theorem cmdExcOf_isException {env : Env} {args : List String} {c : ContentBytes}
    {e : PyExc} (h : cmdExcOf env args c = some e) : e.isException = true := by
  cases c with
  | nonUtf8 =>
    simp only [cmdExcOf, Option.some.injEq] at h
    subst h
    rfl
  | utf8 s =>
    simp only [cmdExcOf] at h
    cases hrun : env.run args s with
    | fail stderr =>
      simp only [hrun] at h
      exact Option.noConfusion h
    | ok out =>
      simp only [hrun] at h
      cases hp : env.parse out with
      | none =>
        simp only [hp, Option.some.injEq] at h
        subst h
        rfl
      | some data =>
        simp only [hp] at h
        cases data with
        | mapping fields => simp [popStatus] at h
        | scalar s2 =>
          simp only [popStatus, Option.some.injEq] at h
          subst h
          rfl
        | sequence items =>
          simp only [popStatus, Option.some.injEq] at h
          subst h
          rfl
        | nullV =>
          simp only [popStatus, Option.some.injEq] at h
          subst h
          rfl

theorem invoke_cli_fs_exc (env : Env) (g a v : String) (c : ContentBytes) (w : World) :
    (invoke_kuadrant_cli env g (some a) (some v) c w).world.fs
      = applyOps (cliFsTail env g a v c) w.fs ∧
    (invoke_kuadrant_cli env g (some a) (some v) c w).exc = cliExcOf env c := by
  unfold invoke_kuadrant_cli
  rcases h1 : invoke_kuadrant_command env g (some a) (some v) httprouteArgs c
      "httproute" w with ⟨w1, e1⟩
  have hc1 := invoke_cmd_fs_exc env g a v httprouteArgs c "httproute" w
  rw [h1] at hc1
  obtain ⟨hf1, he1⟩ := hc1
  simp only at hf1 he1
  cases e1 with
  | some e =>
    simp only [PyRes.andThen, cliFsTail, cliExcOf, ← he1, List.append_nil]
    exact ⟨hf1, trivial⟩
  | none =>
    simp only [PyRes.andThen]
    rcases h2 : invoke_kuadrant_command env g (some a) (some v) authpolicyArgs c
        "authpolicy" w1 with ⟨w2, e2⟩
    have hc2 := invoke_cmd_fs_exc env g a v authpolicyArgs c "authpolicy" w1
    rw [h2] at hc2
    obtain ⟨hf2, he2⟩ := hc2
    simp only at hf2 he2
    cases e2 with
    | some e =>
      simp only [PyRes.andThen, cliFsTail, cliExcOf, ← he1, ← he2,
        List.append_nil, applyOps_append]
      exact ⟨by rw [hf2, hf1], trivial⟩
    | none =>
      simp only [PyRes.andThen]
      rcases h3 : invoke_kuadrant_command env g (some a) (some v) ratelimitArgs c
          "ratelimiting_policy" w2 with ⟨w3, e3⟩
      have hc3 := invoke_cmd_fs_exc env g a v ratelimitArgs c "ratelimiting_policy" w2
      rw [h3] at hc3
      obtain ⟨hf3, he3⟩ := hc3
      simp only at hf3 he3
      simp only [cliFsTail, cliExcOf, ← he1, ← he2, applyOps_append]
      exact ⟨by rw [hf3, hf2, hf1], he3⟩

theorem cliExcOf_isException {env : Env} {c : ContentBytes} {e : PyExc}
    (h : cliExcOf env c = some e) : e.isException = true := by
  unfold cliExcOf at h
  cases h1 : cmdExcOf env httprouteArgs c with
  | some e1 =>
    rw [h1] at h
    simp only [Option.some.injEq] at h
    subst h
    exact cmdExcOf_isException h1
  | none =>
    rw [h1] at h
    cases h2 : cmdExcOf env authpolicyArgs c with
    | some e2 =>
      rw [h2] at h
      simp only [Option.some.injEq] at h
      subst h
      exact cmdExcOf_isException h2
    | none =>
      rw [h2] at h
      exact cmdExcOf_isException h

/-- With a `None` artifact id or version, the first `os.path.join` of the
first mode raises `TypeError` before any side effect, and the two other
modes never run. -/
theorem invoke_cli_noneCoord (env : Env) (g : String) (a v : Option String)
    (c : ContentBytes) (w : World) (h : a = none ∨ v = none) :
    invoke_kuadrant_cli env g a v c w = ⟨w, some (.typeError "join on NoneType")⟩ := by
  have hcmd : invoke_kuadrant_command env g a v httprouteArgs c "httproute" w
      = ⟨w, some (.typeError "join on NoneType")⟩ := by
    rcases h with h | h
    · subst h
      rfl
    · subst h
      cases a <;> rfl
  unfold invoke_kuadrant_cli
  rw [hcmd]
  rfl

theorem gac_fs_exc (env : Env) (g : String) (a v : Option String) (w : World) :
    (get_artifact_content env g a v w).world.fs = applyOps (gacFsTail env g a v) w.fs ∧
    (get_artifact_content env g a v w).exc = none := by
  unfold get_artifact_content gacFsTail
  cases hc : env.fetchContent g a v with
  | error msg =>
    simp [hc, PyExc.isException, applyOps, World.logLine]
  | ok c =>
    cases hs : env.fetchState g a v with
    | error msg =>
      simp [hs, PyExc.isException, applyOps, World.logLine]
    | ok st =>
      by_cases hst : st = VersionState.enabled
      · simp only [hst, if_pos rfl]
        match a, v with
        | some a2, some v2 =>
          rcases hcli : invoke_kuadrant_cli env g (some a2) (some v2) c
              { w with fetches := w.fetches ++ [(g, some a2, some v2)] } with ⟨w4, e4⟩
          have hcc := invoke_cli_fs_exc env g a2 v2 c
            { w with fetches := w.fetches ++ [(g, some a2, some v2)] }
          rw [hcli] at hcc
          obtain ⟨hf4, he4⟩ := hcc
          simp only at hf4 he4
          cases e4 with
          | some e =>
            have hex : e.isException = true := cliExcOf_isException he4.symm
            simp [hex, hf4, World.logLine]
          | none => simp [hf4]
        | none, v =>
          rw [invoke_cli_noneCoord env g none v c _ (Or.inl rfl)]
          simp [PyExc.isException, applyOps, World.logLine]
        | some a2, none =>
          rw [invoke_cli_noneCoord env g (some a2) none c _ (Or.inr rfl)]
          simp [PyExc.isException, applyOps, World.logLine]
      · simp [hst, applyOps]

theorem pmCatch_of_none {r : PyRes} (h : r.exc = none) : pmCatch r = r := by
  rcases r with ⟨w1, e1⟩
  simp only at h
  subst h
  rfl

theorem pm_created_fs_exc (env : Env) (m : KMsg) (p : Payload) (w : World)
    (hv : m.value = .utf8 (.payloadObj p))
    (ht : p.eventType = some "ARTIFACT_VERSION_CREATED") :
    (process_message env m w).world.fs
      = applyOps (gacFsTail env (p.groupId.getD "default") p.artifactId p.version) w.fs ∧
    (process_message env m w).exc = none := by
  unfold process_message
  rw [hv]
  simp only [decodeMsgValue, ht, if_pos]
  rw [pmCatch_of_none ((gac_fs_exc env _ _ _ _).2)]
  exact ⟨(gac_fs_exc env _ _ _ _).1, (gac_fs_exc env _ _ _ _).2⟩

/-- When the registry reports a non-enabled state, `get_artifact_content`
only records the fetch attempt (and possibly a failure log line). -/
theorem gac_skip_nonEnabled (env : Env) (g : String) (a v : Option String) (w : World)
    (st : VersionState) (hs : env.fetchState g a v = .ok st)
    (hne : st ≠ VersionState.enabled) :
    ∃ lg : List String, get_artifact_content env g a v w =
      ⟨{ w with fetches := w.fetches ++ [(g, a, v)], log := w.log ++ lg }, none⟩ := by
  unfold get_artifact_content
  cases hc : env.fetchContent g a v with
  | error msg =>
    refine ⟨[fetchFailMsg a v], ?_⟩
    simp [hc, PyExc.isException, World.logLine]
  | ok c =>
    refine ⟨[], ?_⟩
    simp [hc, hs, hne, World.logLine]

/-- With a `None` artifact id, `get_artifact_content` never writes a file
or runs the generator: any branch either fails at fetch time or raises
`TypeError` at the first path join, and the blanket handler absorbs it. -/
theorem gac_none_artifact (env : Env) (g : String) (v : Option String) (w : World) :
    (get_artifact_content env g none v w).world.fs = w.fs ∧
    (get_artifact_content env g none v w).world.gens = w.gens ∧
    (get_artifact_content env g none v w).exc = none := by
  unfold get_artifact_content
  cases hc : env.fetchContent g none v with
  | error msg => simp [hc, PyExc.isException, World.logLine]
  | ok c =>
    cases hs : env.fetchState g none v with
    | error msg => simp [hc, hs, PyExc.isException, World.logLine]
    | ok st =>
      by_cases hst : st = VersionState.enabled
      · subst hst
        have hcli := invoke_cli_noneCoord env g none v c
          { w with fetches := w.fetches ++ [(g, none, v)] } (Or.inl rfl)
        simp [hc, hs, hcli, PyExc.isException, World.logLine]
      · simp [hc, hs, hst, World.logLine]

/-- Looking up a freshly written file returns its contents. -/
theorem FS.lookup_write (fs : FS) (p : Path) (y : Yaml) :
    (fs.write p y).lookup p = some y := by
  simp [FS.lookup, FS.write, writeOne, List.find?]

/-- C5: for a VersionCreated event, or a VersionStateChanged event
claiming newState ENABLED, when the registry reports a state other than
ENABLED at fetch time, no generator is invoked and no file is produced:
the output tree and the generator-invocation trace are unchanged and no
exception escapes. The registry state is authoritative over the event. -/
theorem registry_state_authoritative (env : Env) (m : KMsg) (p : Payload) (w : World)
    (st : VersionState)
    (hv : m.value = .utf8 (.payloadObj p))
    (ht : p.eventType = some "ARTIFACT_VERSION_CREATED" ∨
      (p.eventType = some "ARTIFACT_VERSION_STATE_CHANGED" ∧
        p.newState = some "ENABLED"))
    (hs : env.fetchState (p.groupId.getD "default") p.artifactId p.version = .ok st)
    (hne : st ≠ VersionState.enabled) :
    (process_message env m w).world.fs = w.fs ∧
    (process_message env m w).world.gens = w.gens ∧
    (process_message env m w).exc = none := by
  unfold process_message
  rw [hv]
  rcases ht with ht | ⟨ht, hns⟩
  · simp only [decodeMsgValue, ht, if_pos]
    obtain ⟨lg, hgac⟩ :=
      gac_skip_nonEnabled env (p.groupId.getD "default") p.artifactId p.version
        (w.logLine ("Artifact version created event - " ++
          pyOptStr (some "ARTIFACT_VERSION_CREATED") ++ ": Artifact ID: " ++
          pyOptStr p.artifactId ++ ", Version: " ++ pyOptStr p.version)) st hs hne
    rw [hgac]
    simp [pmCatch, World.logLine]
  · simp only [decodeMsgValue, ht, hns]
    obtain ⟨lg, hgac⟩ :=
      gac_skip_nonEnabled env (p.groupId.getD "default") p.artifactId p.version
        (w.logLine ("Artifact version enabled event - " ++
          pyOptStr (some "ARTIFACT_VERSION_STATE_CHANGED") ++ ": Artifact ID: " ++
          pyOptStr p.artifactId ++ ", Version: " ++ pyOptStr p.version)) st hs hne
    simp only [if_neg (by simp : ¬ (some "ARTIFACT_VERSION_STATE_CHANGED"
      = some "ARTIFACT_VERSION_CREATED")), if_pos rfl]
    rw [hgac]
    simp [pmCatch, World.logLine]

/-- C5 witness: a concrete VersionCreated event against a registry
reporting DISABLED leaves the output tree and the generator trace
untouched. -/
theorem registry_state_authoritative_witness :
    (process_message env5 msg5 w0).world.fs = w0.fs ∧
    (process_message env5 msg5 w0).world.gens = w0.gens ∧
    (process_message env5 msg5 w0).exc = none :=
  registry_state_authoritative env5 msg5 p5 w0 VersionState.disabled rfl
    (Or.inl rfl) rfl (by decide)

/-- C10: a VersionStateChanged event whose payload lacks newState is
logged and skipped exactly like a non-ENABLED state change: no fetch, no
generation, no write, no deletion, and no decode error is reported. -/
theorem state_changed_missing_newState_skips (env : Env) (m : KMsg) (p : Payload)
    (w : World)
    (hv : m.value = .utf8 (.payloadObj p))
    (ht : p.eventType = some "ARTIFACT_VERSION_STATE_CHANGED")
    (hns : p.newState = none) :
    process_message env m w = ⟨w.logLine (skipStateMsg p.artifactId none), none⟩ := by
  unfold process_message
  rw [hv]
  simp [decodeMsgValue, ht, hns, pmCatch]

/-- C10 witness: a concrete state-changed event without newState is a
pure logged skip. -/
theorem state_changed_missing_newState_skips_witness :
    process_message env0 msg10 w0
      = ⟨w0.logLine (skipStateMsg (some "art") none), none⟩ :=
  state_changed_missing_newState_skips env0 msg10 p10 w0 rfl rfl rfl

/-- C9: when the generator succeeds and its output parses to a mapping,
the document written to disk is that mapping with the top-level status
field removed and every other top-level field preserved. -/
theorem status_field_stripped (env : Env) (g a v mode : String) (args : List String)
    (w : World) (s out : String) (fields : List (String × String))
    (hrun : env.run args s = .ok out)
    (hp : env.parse out = some (.mapping fields))
    (_hstat : "status" ∈ fields.map Prod.fst) :
    ((invoke_kuadrant_command env g (some a) (some v) args (.utf8 s) mode w).world.fs.lookup
        (outputPath g a v mode)
      = some (.mapping (fields.filter (fun kv => kv.1 ≠ "status")))) ∧
    ((invoke_kuadrant_command env g (some a) (some v) args (.utf8 s) mode w).exc = none) ∧
    (∀ kv ∈ fields.filter (fun kv => kv.1 ≠ "status"), kv.1 ≠ "status") ∧
    (∀ kv ∈ fields, kv.1 ≠ "status" →
      kv ∈ fields.filter (fun kv => kv.1 ≠ "status")) := by
  refine ⟨?_, ?_, ?_, ?_⟩
  · unfold invoke_kuadrant_command
    simp only [decodeContent, hrun, hp, popStatus, World.logLine]
    exact FS.lookup_write (w.fs.mkdirs [g, a, v]) (outputPath g a v mode)
      (.mapping (fields.filter (fun kv => kv.1 ≠ "status")))
  · unfold invoke_kuadrant_command
    simp only [decodeContent, hrun, hp, popStatus, World.logLine]
  · intro kv hkv
    simpa using (List.mem_filter.mp hkv).2
  · intro kv hkv hne
    exact List.mem_filter.mpr ⟨hkv, decide_eq_true hne⟩

/-- C9 witness: a concrete generator document with a status field is
written with the field stripped and the kind field preserved. -/
theorem status_field_stripped_witness :
    ((invoke_kuadrant_command envOK "shop" (some "orders-api") (some "1") httprouteArgs
        (.utf8 "OAS") "httproute" w0).world.fs.lookup
        (outputPath "shop" "orders-api" "1" "httproute")
      = some (.mapping [("kind", "Route")])) ∧
    ("status" ∈ ([("kind", "Route"), ("status", "stale")] :
        List (String × String)).map Prod.fst) := by
  have h := status_field_stripped envOK "shop" "orders-api" "1" "httproute" httprouteArgs
    w0 "OAS" "DOC" [("kind", "Route"), ("status", "stale")] rfl (by decide) (by decide)
  exact ⟨by simpa using h.1, by decide⟩

/-- C6: an ArtifactDeleted event removes the whole artifact subtree
(every version directory below group/artifactId); a VersionDeleted event
removes only the named version subtree, leaving sibling versions in
place; in both cases an absent target directory is a logged no-op. -/
theorem deletion_scope (g a v : String) (w : World) :
    (w.fs.existsPath [g, a] = true →
      (delete_artifact_directory g (some a) w
          = ⟨{ (w.logLine ("Deleted artifact directory with all versions: " ++
              String.intercalate "/" [g, a])) with fs := w.fs.rmtree [g, a] }, none⟩ ∧
        (∀ f ∈ (delete_artifact_directory g (some a) w).world.fs.files,
          underDir f.1 [g, a] = false) ∧
        (∀ f ∈ w.fs.files, underDir f.1 [g, a] = false →
          f ∈ (delete_artifact_directory g (some a) w).world.fs.files))) ∧
    (w.fs.existsPath [g, a] = false →
      delete_artifact_directory g (some a) w
        = ⟨w.logLine ("Artifact directory does not exist: " ++
            String.intercalate "/" [g, a]), none⟩) ∧
    (w.fs.existsPath [g, a, v] = true →
      (delete_version g (some a) (some v) w
          = ⟨{ (w.logLine ("Deleted directory: " ++ String.intercalate "/" [g, a, v])) with
              fs := w.fs.rmtree [g, a, v] }, none⟩ ∧
        (∀ f ∈ (delete_version g (some a) (some v) w).world.fs.files,
          underDir f.1 [g, a, v] = false) ∧
        (∀ v2 rest y, v2 ≠ v → (([g, a, v2] ++ rest, y) ∈ w.fs.files) →
          (([g, a, v2] ++ rest, y) ∈ (delete_version g (some a) (some v) w).world.fs.files)))) ∧
    (w.fs.existsPath [g, a, v] = false →
      delete_version g (some a) (some v) w
        = ⟨w.logLine ("Directory does not exist: " ++
            String.intercalate "/" [g, a, v]), none⟩) := by
  refine ⟨fun hex => ⟨?_, ?_, ?_⟩, fun hex => ?_, fun hex => ⟨?_, ?_, ?_⟩, fun hex => ?_⟩
  · simp [delete_artifact_directory, hex]
  · intro f hf
    simp only [delete_artifact_directory, hex, if_pos] at hf
    simp only [FS.rmtree, List.mem_filter] at hf
    simpa using hf.2
  · intro f hf hnu
    simp only [delete_artifact_directory, hex, if_pos]
    simp only [FS.rmtree, List.mem_filter]
    exact ⟨hf, by simpa using hnu⟩
  · simp [delete_artifact_directory, hex]
  · simp [delete_version, hex]
  · intro f hf
    simp only [delete_version, hex, if_pos] at hf
    simp only [FS.rmtree, List.mem_filter] at hf
    simpa using hf.2
  · intro v2 rest y hv2 hmem
    simp only [delete_version, hex, if_pos]
    simp only [FS.rmtree, List.mem_filter]
    refine ⟨hmem, ?_⟩
    simp [underDir, hv2]
  · simp [delete_version, hex]

/-- C6 witness: deleting version 1 of a two-version artifact removes
everything under it and keeps the sibling version's file. -/
theorem deletion_scope_witness :
    w6.fs.existsPath ["g", "art", "1"] = true ∧
    (∀ f ∈ (delete_version "g" (some "art") (some "1") w6).world.fs.files,
      underDir f.1 ["g", "art", "1"] = false) ∧
    (["g", "art", "2", "f.yaml"], Yaml.nullV)
      ∈ (delete_version "g" (some "art") (some "1") w6).world.fs.files := by
  obtain ⟨h1, h2, h3, h4⟩ := deletion_scope "g" "art" "1" w6
  obtain ⟨ha, hb, hc⟩ := h3 (by decide)
  exact ⟨by decide, hb, hc "2" ["f.yaml"] Yaml.nullV (by decide) (by decide)⟩

/-- C7: on every exit path of the consumption loop — normal
idle-triggered termination, an exception escaping message processing, a
poll that raises, or the poll sequence running out — the consumer handle
is closed (the `finally` clause runs). -/
theorem consumer_always_closed (env : Env) (timeout idleTimeout : Nat)
    (polls : List Poll) (w : World) :
    (consume_messages_in_batches env timeout idleTimeout polls w).closed = true := rfl

/-- Unfolding equation: an empty poll adds the timeout to the idle clock
and either flushes-and-stops or keeps looping. -/
theorem consumeLoopAux_cons_empty (env : Env) (t it idle : Nat) (msgs : List KMsg)
    (rest : List Poll) (w : World) (he : msgs.isEmpty = true) :
    consumeLoopAux env t it (Poll.batch msgs :: rest) idle w
      = if it ≤ idle + t then
          ((commit_and_push_to_git env
              (w.logLine "No messages left in Kafka. Pushing files to git...")).world,
            Outcome.finished, 1)
        else consumeLoopAux env t it rest (idle + t) w := by
  simp only [consumeLoopAux, he, if_true]

/-- Unfolding equation: a non-empty poll processes the batch and loops
with the idle clock reset (or surfaces the escaping exception). -/
theorem consumeLoopAux_cons_nonempty (env : Env) (t it idle : Nat) (msgs : List KMsg)
    (rest : List Poll) (w : World) (he : msgs.isEmpty = false) :
    consumeLoopAux env t it (Poll.batch msgs :: rest) idle w
      = match (process_messages env msgs w).exc with
        | some e => ((process_messages env msgs w).world, Outcome.errored e, 0)
        | none => consumeLoopAux env t it rest 0 (process_messages env msgs w).world := by
  simp only [consumeLoopAux, he, Bool.false_eq_true, if_false]

/-- The loop body returns `finished` exactly alongside a single
commit-and-push; on every other outcome no commit-and-push happened. -/
theorem loop_sync_count (env : Env) (t it : Nat) :
    ∀ (polls : List Poll) (idle : Nat) (w : World),
      ((consumeLoopAux env t it polls idle w).2.1 = Outcome.finished →
        (consumeLoopAux env t it polls idle w).2.2 = 1) ∧
      ((consumeLoopAux env t it polls idle w).2.1 ≠ Outcome.finished →
        (consumeLoopAux env t it polls idle w).2.2 = 0) := by
  intro polls
  induction polls with
  | nil =>
    intro idle w
    exact ⟨fun h => by simp [consumeLoopAux] at h, fun h => rfl⟩
  | cons pl rest ih =>
    intro idle w
    cases pl with
    | broken e =>
      exact ⟨fun h => by simp [consumeLoopAux] at h, fun h => rfl⟩
    | batch msgs =>
      cases he : msgs.isEmpty with
      | true =>
        rw [consumeLoopAux_cons_empty env t it idle msgs rest w he]
        by_cases hth : it ≤ idle + t
        · rw [if_pos hth]
          exact ⟨fun h => rfl, fun h => absurd rfl h⟩
        · rw [if_neg hth]
          exact ih (idle + t) w
      | false =>
        rw [consumeLoopAux_cons_nonempty env t it idle msgs rest w he]
        cases hexc : (process_messages env msgs w).exc with
        | some e =>
          exact ⟨fun h => by simp at h, fun h => rfl⟩
        | none =>
          exact ih 0 (process_messages env msgs w).world

/-- C1: with pollTimeout 5 and idleThreshold 10 the loop resets its idle
counter to zero on every non-empty batch, adds the poll timeout on every
empty batch below the threshold, and flushes-and-stops at the threshold;
two consecutive empty polls from a reset counter trigger exactly one
commit-and-push followed by termination; a single empty poll triggers
none; and finishing normally happens exactly alongside that single
synchronizer invocation — there is no other normal exit. -/
theorem idle_loop_spec (env : Env) (w : World) :
    (∀ (idle : Nat) (m : KMsg) (ms : List KMsg) (rest : List Poll),
      (process_messages env (m :: ms) w).exc = none →
      consumeLoopAux env 5 10 (Poll.batch (m :: ms) :: rest) idle w
        = consumeLoopAux env 5 10 rest 0 (process_messages env (m :: ms) w).world) ∧
    (∀ (idle : Nat) (rest : List Poll), idle + 5 < 10 →
      consumeLoopAux env 5 10 (Poll.batch [] :: rest) idle w
        = consumeLoopAux env 5 10 rest (idle + 5) w) ∧
    (∀ (idle : Nat) (rest : List Poll), 10 ≤ idle + 5 →
      consumeLoopAux env 5 10 (Poll.batch [] :: rest) idle w
        = ((commit_and_push_to_git env
              (w.logLine "No messages left in Kafka. Pushing files to git...")).world,
            Outcome.finished, 1)) ∧
    (∀ rest : List Poll,
      consumeLoopAux env 5 10 (Poll.batch [] :: Poll.batch [] :: rest) 0 w
        = ((commit_and_push_to_git env
              (w.logLine "No messages left in Kafka. Pushing files to git...")).world,
            Outcome.finished, 1)) ∧
    (consumeLoopAux env 5 10 [Poll.batch []] 0 w = (w, Outcome.outOfInput 5, 0)) ∧
    (∀ (polls : List Poll) (idle : Nat),
      ((consumeLoopAux env 5 10 polls idle w).2.1 = Outcome.finished →
        (consumeLoopAux env 5 10 polls idle w).2.2 = 1) ∧
      ((consumeLoopAux env 5 10 polls idle w).2.1 ≠ Outcome.finished →
        (consumeLoopAux env 5 10 polls idle w).2.2 = 0)) := by
  refine ⟨?_, ?_, ?_, ?_, ?_, fun polls idle => loop_sync_count env 5 10 polls idle w⟩
  · intro idle m ms rest hexc
    rw [consumeLoopAux_cons_nonempty env 5 10 idle (m :: ms) rest w rfl, hexc]
  · intro idle rest hlow
    rw [consumeLoopAux_cons_empty env 5 10 idle [] rest w rfl, if_neg (by omega)]
  · intro idle rest hhigh
    rw [consumeLoopAux_cons_empty env 5 10 idle [] rest w rfl, if_pos hhigh]
  · intro rest
    rw [consumeLoopAux_cons_empty env 5 10 0 [] (Poll.batch [] :: rest) w rfl,
      if_neg (by omega),
      consumeLoopAux_cons_empty env 5 10 (0 + 5) [] rest w rfl,
      if_pos (by omega)]
  · rw [consumeLoopAux_cons_empty env 5 10 0 [] [] w rfl, if_neg (by omega)]
    rfl

/-- C1 witness: concrete runs showing the reset, the increment, the
two-empty-poll flush with exactly one synchronizer call, and the
single-empty-poll non-flush. -/
theorem idle_loop_spec_witness :
    (consumeLoopAux env0 5 10 [Poll.batch [msgEOF]] 3 w0
      = consumeLoopAux env0 5 10 [] 0 w0) ∧
    (consumeLoopAux env0 5 10 [Poll.batch []] 0 w0
      = consumeLoopAux env0 5 10 [] 5 w0) ∧
    (consumeLoopAux env0 5 10 [Poll.batch [], Poll.batch []] 0 w0
      = ((commit_and_push_to_git env0
            (w0.logLine "No messages left in Kafka. Pushing files to git...")).world,
          Outcome.finished, 1)) ∧
    (consumeLoopAux env0 5 10 [Poll.batch []] 0 w0 = (w0, Outcome.outOfInput 5, 0)) ∧
    ((consumeLoopAux env0 5 10 [Poll.batch [], Poll.batch []] 0 w0).2.2 = 1) := by
  obtain ⟨h1, h2, h3, h4, h5, h6⟩ := idle_loop_spec env0 w0
  refine ⟨h1 3 msgEOF [] [] rfl, h2 0 [] (by omega), h4 [], h5, ?_⟩
  exact (h6 [Poll.batch [], Poll.batch []] 0).1 (by rw [h4 []])

theorem writesOf_append (x y : List FsOp) : writesOf (x ++ y) = writesOf x ++ writesOf y :=
  List.filterMap_append x y _

/-- Every file one generation-mode call writes sits at the canonical
output path of that mode. -/
theorem cmdFsTail_writes (env : Env) (g a v : String) (args : List String)
    (c : ContentBytes) (mode : String) :
    ∀ q ∈ writesOf (cmdFsTail env g a v args c mode), q.1 = outputPath g a v mode := by
  intro q hq
  cases c with
  | nonUtf8 => simp [cmdFsTail, writesOf] at hq
  | utf8 s =>
    cases hr : env.run args s with
    | fail e => simp [cmdFsTail, writesOf, hr] at hq
    | ok out =>
      cases hp : env.parse out with
      | none => simp [cmdFsTail, writesOf, hr, hp] at hq
      | some data =>
        cases hps : popStatus data with
        | error e => simp [cmdFsTail, writesOf, hr, hp, hps] at hq
        | ok d =>
          simp only [cmdFsTail, writesOf, hr, hp, hps, List.filterMap_cons,
            List.filterMap_nil, List.mem_cons, List.not_mem_nil, or_false] at hq
          simp [hq]

/-- Every file one `invoke_kuadrant_cli` call writes sits at one of the
three canonical output paths of the coordinate. -/
theorem cliFsTail_writes (env : Env) (g a v : String) (c : ContentBytes) :
    ∀ q ∈ writesOf (cliFsTail env g a v c),
      q.1 = outputPath g a v "httproute" ∨ q.1 = outputPath g a v "authpolicy" ∨
        q.1 = outputPath g a v "ratelimiting_policy" := by
  intro q hq
  unfold cliFsTail at hq
  cases h1 : cmdExcOf env httprouteArgs c with
  | some e =>
    simp only [h1, List.append_nil] at hq
    exact Or.inl (cmdFsTail_writes env g a v httprouteArgs c "httproute" q hq)
  | none =>
    cases h2 : cmdExcOf env authpolicyArgs c with
    | some e =>
      simp only [h1, h2, List.append_nil, writesOf_append, List.mem_append] at hq
      rcases hq with hq | hq
      · exact Or.inl (cmdFsTail_writes env g a v httprouteArgs c "httproute" q hq)
      · exact Or.inr (Or.inl
          (cmdFsTail_writes env g a v authpolicyArgs c "authpolicy" q hq))
    | none =>
      simp only [h1, h2, writesOf_append, List.mem_append] at hq
      rcases hq with hq | hq | hq
      · exact Or.inl (cmdFsTail_writes env g a v httprouteArgs c "httproute" q hq)
      · exact Or.inr (Or.inl
          (cmdFsTail_writes env g a v authpolicyArgs c "authpolicy" q hq))
      · exact Or.inr (Or.inr
          (cmdFsTail_writes env g a v ratelimitArgs c "ratelimiting_policy" q hq))

/-- Every file one `get_artifact_content` call writes sits at one of the
three canonical output paths of the coordinate. -/
theorem gacFsTail_writes (env : Env) (g a v : String) :
    ∀ q ∈ writesOf (gacFsTail env g (some a) (some v)),
      q.1 = outputPath g a v "httproute" ∨ q.1 = outputPath g a v "authpolicy" ∨
        q.1 = outputPath g a v "ratelimiting_policy" := by
  intro q hq
  cases hc : env.fetchContent g (some a) (some v) with
  | error msg => simp [gacFsTail, hc, writesOf] at hq
  | ok c =>
    cases hs : env.fetchState g (some a) (some v) with
    | error msg => simp [gacFsTail, hc, hs, writesOf] at hq
    | ok st =>
      by_cases hst : st = VersionState.enabled
      · simp only [gacFsTail, hc, hs, if_pos hst] at hq
        exact cliFsTail_writes env g a v c q hq
      · simp [gacFsTail, hc, hs, hst, writesOf] at hq

/-- C8: the output path of each generated file is fully determined by
(group, artifactId, version, mode) in the form
group/artifactId/version/group_artifactId_vversion_mode.yaml, and
processing the same VersionCreated event a second time (against the same
oracles, hence identical registry content and generator output)
overwrites the same paths: the output tree after the second processing
is identical to the tree after the first. -/
theorem version_created_idempotent (env : Env) (m : KMsg) (p : Payload) (w : World)
    (a v : String)
    (hv : m.value = .utf8 (.payloadObj p))
    (ht : p.eventType = some "ARTIFACT_VERSION_CREATED")
    (ha : p.artifactId = some a) (hver : p.version = some v) :
    ((process_message env m ((process_message env m w).world)).world.fs
      = (process_message env m w).world.fs) ∧
    (∀ f ∈ (process_message env m w).world.fs.files,
      f ∈ w.fs.files ∨
        f.1 = outputPath (p.groupId.getD "default") a v "httproute" ∨
        f.1 = outputPath (p.groupId.getD "default") a v "authpolicy" ∨
        f.1 = outputPath (p.groupId.getD "default") a v "ratelimiting_policy") := by
  obtain ⟨hf1, he1⟩ := pm_created_fs_exc env m p w hv ht
  obtain ⟨hf2, he2⟩ := pm_created_fs_exc env m p ((process_message env m w).world) hv ht
  constructor
  · rw [hf2, hf1, applyOps_idem]
  · intro f hf
    rw [hf1] at hf
    rcases mem_files_applyOps hf with h | h
    · exact Or.inl h
    · rcases List.mem_map.mp h with ⟨q, hq, hqe⟩
      have hw := gacFsTail_writes env (p.groupId.getD "default") a v q
        (by rwa [ha, hver] at hq)
      rcases hw with h1 | h1 | h1
      · exact Or.inr (Or.inl (by rw [← hqe]; exact h1))
      · exact Or.inr (Or.inr (Or.inl (by rw [← hqe]; exact h1)))
      · exact Or.inr (Or.inr (Or.inr (by rw [← hqe]; exact h1)))

/-- C8 witness: replaying a concrete successful VersionCreated event
leaves the output tree byte-identical to the first run's. -/
theorem version_created_idempotent_witness :
    (process_message envOK msg8 ((process_message envOK msg8 w0).world)).world.fs
      = (process_message envOK msg8 w0).world.fs :=
  (version_created_idempotent envOK msg8 p8 w0 "orders-api" "1" rfl rfl rfl rfl).1

/-- C2 counterexample: with a generator whose httproute mode emits
malformed output while the other two modes succeed, processing one
enabled VersionCreated event runs only the httproute invocation; the
authpolicy and ratelimiting modes are never attempted and no file is
written, and the only failure log line is the per-coordinate one — so a
malformed-output failure does block the remaining modes. -/
theorem generation_mode_independence_cex :
    (process_message envBadY msg5 w0).world.gens = [httprouteArgs] ∧
    (process_message envBadY msg5 w0).world.fs.files = [] ∧
    (process_message envBadY msg5 w0).world.log
      = ["Artifact version created event - ARTIFACT_VERSION_CREATED: " ++
          "Artifact ID: a, Version: 1",
         "Failed to retrieve artifact content for a version 1"] ∧
    envBadY.run authpolicyArgs "OAS" = SubprocResult.ok "GOOD" ∧
    envBadY.parse "GOOD" = some (.mapping [("kind", "Policy")]) := by
  refine ⟨rfl, rfl, ?_, by decide, by decide⟩
  decide

/-- C2 amended: a per-mode failure by non-zero generator exit is caught
and logged inside that mode, and the remaining modes of the coordinate
are still attempted from the post-failure state; a per-mode failure by
malformed generator output instead escapes the per-mode handler, so the
remaining modes are not attempted and the exception surfaces to the
per-coordinate handler. -/
theorem generation_mode_independence_amended (env : Env) (g a v : String)
    (s : String) (w : World) :
    (∀ err, env.run httprouteArgs s = .fail err →
      invoke_kuadrant_cli env g (some a) (some v) (.utf8 s) w
        = PyRes.andThen
            (invoke_kuadrant_command env g (some a) (some v) authpolicyArgs (.utf8 s)
              "authpolicy"
              { w with fs := w.fs.mkdirs [g, a, v], gens := w.gens ++ [httprouteArgs],
                       log := w.log ++ ["Error generating Kuadrant resources"] })
            (invoke_kuadrant_command env g (some a) (some v) ratelimitArgs (.utf8 s)
              "ratelimiting_policy")) ∧
    (∀ out, env.run httprouteArgs s = .ok out → env.parse out = none →
      invoke_kuadrant_cli env g (some a) (some v) (.utf8 s) w
        = ⟨{ w with fs := w.fs.mkdirs [g, a, v], gens := w.gens ++ [httprouteArgs] },
            some (.yamlError out)⟩) := by
  constructor
  · intro err hrun
    have hcmd : invoke_kuadrant_command env g (some a) (some v) httprouteArgs (.utf8 s)
        "httproute" w
        = ⟨{ w with fs := w.fs.mkdirs [g, a, v], gens := w.gens ++ [httprouteArgs],
                    log := w.log ++ ["Error generating Kuadrant resources"] }, none⟩ := by
      simp [invoke_kuadrant_command, decodeContent, hrun,
        PyExc.isCalledProcessError, World.logLine]
    unfold invoke_kuadrant_cli
    rw [hcmd]
    rfl
  · intro out hrun hp
    have hcmd : invoke_kuadrant_command env g (some a) (some v) httprouteArgs (.utf8 s)
        "httproute" w
        = ⟨{ w with fs := w.fs.mkdirs [g, a, v], gens := w.gens ++ [httprouteArgs] },
            some (.yamlError out)⟩ := by
      simp [invoke_kuadrant_command, decodeContent, hrun, hp,
        PyExc.isCalledProcessError, World.logLine]
    unfold invoke_kuadrant_cli
    rw [hcmd]
    rfl

/-- C2 amended witness: a concrete non-zero httproute exit still leads
to the authpolicy and ratelimiting invocations, while a concrete
malformed httproute output aborts the remaining modes. -/
theorem generation_mode_independence_amended_witness :
    (invoke_kuadrant_cli envFail1 "g" (some "a") (some "1") (.utf8 "OAS") w0
      = PyRes.andThen
          (invoke_kuadrant_command envFail1 "g" (some "a") (some "1") authpolicyArgs
            (.utf8 "OAS") "authpolicy"
            { w0 with fs := w0.fs.mkdirs ["g", "a", "1"],
                      gens := w0.gens ++ [httprouteArgs],
                      log := w0.log ++ ["Error generating Kuadrant resources"] })
          (invoke_kuadrant_command envFail1 "g" (some "a") (some "1") ratelimitArgs
            (.utf8 "OAS") "ratelimiting_policy")) ∧
    (invoke_kuadrant_cli envBadY "g" (some "a") (some "1") (.utf8 "OAS") w0
      = ⟨{ w0 with fs := w0.fs.mkdirs ["g", "a", "1"],
                   gens := w0.gens ++ [httprouteArgs] },
          some (.yamlError "BAD")⟩) := by
  obtain ⟨hA, _⟩ := generation_mode_independence_amended envFail1 "g" "a" "1" "OAS" w0
  obtain ⟨_, hB⟩ := generation_mode_independence_amended envBadY "g" "a" "1" "OAS" w0
  exact ⟨hA "boom" rfl, hB "BAD" rfl rfl⟩

/-- C3 counterexample: a message whose value bytes are not valid UTF-8
raises UnicodeDecodeError, which no handler catches: the exception
escapes the message and the batch, and the consumption loop aborts on a
per-message processing error (the consumer is still closed). -/
theorem smallest_unit_error_handling_cex :
    process_message env0 msg3 w0 = ⟨w0, some PyExc.unicodeDecodeError⟩ ∧
    (consume_messages_in_batches env0 5 10 [Poll.batch [msg3]] w0).outcome
      = Outcome.errored PyExc.unicodeDecodeError ∧
    (consume_messages_in_batches env0 5 10 [Poll.batch [msg3]] w0).closed = true :=
  ⟨rfl, rfl, rfl⟩

/-- C3 amended: errors of the handled kinds are caught at an enclosing
unit of work and turned into a log line plus skip — JSON-decode and
missing-key errors at the message level, per-message delivery errors at
the batch level, generator non-zero exits at the mode level, and other
fetch or generation exceptions at the coordinate level — and the loop
continues past them; but an error outside these classes, such as a
message value that is not valid UTF-8, propagates uncaught and aborts
the whole loop (which still closes the consumer). -/
theorem smallest_unit_error_handling_amended (env : Env) (w : World) :
    (∀ m : KMsg, m.value = .utf8 .notJson →
      process_message env m w = ⟨w.logLine "Failed to decode JSON message", none⟩) ∧
    (∀ m : KMsg, m.value = .utf8 .noPayloadKey →
      process_message env m w = ⟨w.logLine "Missing expected key", none⟩) ∧
    (∀ m : KMsg, m.value = .utf8 .payloadNotJson →
      process_message env m w = ⟨w.logLine "Failed to decode JSON message", none⟩) ∧
    (∀ (s : String) (rest : List KMsg),
      process_messages env (⟨some (.other s), .utf8 .notJson⟩ :: rest) w
        = process_messages env rest (w.logLine ("Error occurred: " ++ s))) ∧
    (∀ (m : KMsg) (ms : List KMsg) (rest : List Poll) (t it : Nat),
      m.err = none → m.value = .nonUtf8 →
      consume_messages_in_batches env t it (Poll.batch (m :: ms) :: rest) w
        = ⟨w, Outcome.errored PyExc.unicodeDecodeError, 0, true⟩) := by
  refine ⟨?_, ?_, ?_, ?_, ?_⟩
  · intro m hv
    unfold process_message
    rw [hv]
    rfl
  · intro m hv
    unfold process_message
    rw [hv]
    rfl
  · intro m hv
    unfold process_message
    rw [hv]
    rfl
  · intro s rest
    rfl
  · intro m ms rest t it hme hv
    have hpm : process_message env m w = ⟨w, some PyExc.unicodeDecodeError⟩ := by
      unfold process_message
      rw [hv]
      rfl
    have hpms : process_messages env (m :: ms) w
        = ⟨w, some PyExc.unicodeDecodeError⟩ := by
      unfold process_messages
      rw [hme, hpm]
      rfl
    unfold consume_messages_in_batches
    rw [consumeLoopAux_cons_nonempty env t it 0 (m :: ms) rest w rfl, hpms]

/-- C3 amended witness: concrete handled decode errors are logged skips,
and a concrete invalid-UTF-8 message aborts a concrete loop run. -/
theorem smallest_unit_error_handling_amended_witness :
    (process_message env0 ⟨none, .utf8 .notJson⟩ w0
      = ⟨w0.logLine "Failed to decode JSON message", none⟩) ∧
    (process_message env0 ⟨none, .utf8 .noPayloadKey⟩ w0
      = ⟨w0.logLine "Missing expected key", none⟩) ∧
    (consume_messages_in_batches env0 5 10 [Poll.batch [msg3]] w0
      = ⟨w0, Outcome.errored PyExc.unicodeDecodeError, 0, true⟩) := by
  obtain ⟨h1, h2, h3, h4, h5⟩ := smallest_unit_error_handling_amended env0 w0
  exact ⟨h1 _ rfl, h2 _ rfl, h5 msg3 [] [] 5 10 rfl rfl⟩

/-- C4 counterexample: an ArtifactDeleted event whose payload lacks
artifactId is not rejected with a logged skip: after printing the event
header, the path join raises TypeError, which propagates out of the
message handler and aborts the consumption loop. -/
theorem artifactId_required_cex :
    process_message env0 msg4 w0
      = ⟨w0.logLine "Artifact deleted event - ARTIFACT_DELETED: Artifact ID: None",
          some (PyExc.typeError "join on NoneType")⟩ ∧
    (consume_messages_in_batches env0 5 10 [Poll.batch [msg4]] w0).outcome
      = Outcome.errored (PyExc.typeError "join on NoneType") := by
  constructor
  · decide
  · decide

/-- C4 amended: a missing artifactId is never rejected up front. For a
VersionCreated event the dispatcher still enters the fetch step, whose
per-coordinate handler absorbs whatever error the null coordinate
causes: no generation and no write happens and no exception escapes.
For ArtifactDeleted and VersionDeleted events the missing artifactId
raises an uncaught TypeError at the path join, which propagates (and
aborts the loop) instead of being logged and skipped; the deletion
itself never happens. -/
theorem artifactId_required_amended (env : Env) (m : KMsg) (p : Payload) (w : World)
    (hv : m.value = .utf8 (.payloadObj p)) (ha : p.artifactId = none) :
    (p.eventType = some "ARTIFACT_VERSION_CREATED" →
      ((process_message env m w).world.fs = w.fs ∧
       (process_message env m w).world.gens = w.gens ∧
       (process_message env m w).exc = none)) ∧
    (p.eventType = some "ARTIFACT_DELETED" →
      ((process_message env m w).exc = some (.typeError "join on NoneType") ∧
       (process_message env m w).world.fs = w.fs)) ∧
    (p.eventType = some "ARTIFACT_VERSION_DELETED" →
      ((process_message env m w).exc = some (.typeError "join on NoneType") ∧
       (process_message env m w).world.fs = w.fs)) := by
  refine ⟨fun ht => ?_, fun ht => ?_, fun ht => ?_⟩
  · unfold process_message
    rw [hv]
    simp only [decodeMsgValue, ht, ha, if_pos]
    rw [pmCatch_of_none (gac_none_artifact env _ _ _).2.2]
    exact ⟨(gac_none_artifact env _ _ _).1, (gac_none_artifact env _ _ _).2.1,
      (gac_none_artifact env _ _ _).2.2⟩
  · unfold process_message
    rw [hv]
    simp [decodeMsgValue, ht, ha, delete_artifact_directory, pmCatch,
      PyExc.isJsonDecodeError, PyExc.isKeyError, World.logLine]
  · unfold process_message
    rw [hv]
    simp [decodeMsgValue, ht, ha, delete_version, pmCatch,
      PyExc.isJsonDecodeError, PyExc.isKeyError, World.logLine]

/-- C4 amended witness: a concrete VersionCreated event without
artifactId is absorbed with no side effect on the tree, while a concrete
ArtifactDeleted event without artifactId raises TypeError. -/
theorem artifactId_required_amended_witness :
    ((process_message env0 msg4c w0).exc = none ∧
     (process_message env0 msg4c w0).world.fs = w0.fs) ∧
    (process_message env0 msg4 w0).exc = some (.typeError "join on NoneType") := by
  obtain ⟨h1, _, _⟩ := artifactId_required_amended env0 msg4c p4c w0 rfl rfl
  obtain ⟨_, g2, _⟩ := artifactId_required_amended env0 msg4 p4 w0 rfl rfl
  exact ⟨⟨(h1 rfl).2.2, (h1 rfl).1⟩, (g2 rfl).1⟩

end EventsConsumer
